import Mathlib

/-!
# ML_Voice_Agent: the task/note REST backend (`backend/server.js`)

A shallow embedding of the Express handlers of `backend/server.js` and of the
two persistence helpers `readMemory` / `writeMemory`, followed by the
properties of the specification that were checked against them.

Modelling conventions.

* JavaScript values that can be stored in the memory file or arrive in a
  request body are JSON values (`JSON`); `undefined` is `none` in an
  `Option JSON`.  Numbers are finite binary64 values.
* The memory file is identified with the outcome of reading it
  (`MemoryFile`): missing, unreadable, not parsable, or holding the JSON value
  that `JSON.parse` returns.  A successful `writeMemory data` leaves a file
  that parses back to `data`; a failed one leaves the file as it was.
* The route parameter `:index` reaches the handlers as a string.  The
  comparisons `index < 0` and `index >= tasks.length` coerce it with
  `ToNumber` (`toNumber`), `splice` coerces it with `ToIntegerOrInfinity`,
  and `tasks[index]` uses the string itself as property key (`elementKey?`).
* An exception that escapes a handler (a `TypeError`) is answered by Express
  with status 500; it is the response `Response.uncaught`.
* The clock (`new Date().toISOString()`), the destructured field of the
  request body and the success of `fs.writeFileSync` are inputs of the
  handlers.
-/

namespace VoiceAgent

/-! ## Numbers -/

/-- A finite IEEE-754 binary64 value, `(-1)^neg * mant * 2^exp`. -/
structure Binary64 where
  neg : Bool
  mant : Nat
  exp : Int
  deriving DecidableEq, Repr

/-- The result of a numeric coercion: `NaN`, an infinity or a finite value. -/
inductive JSNum where
  | nan
  | inf (neg : Bool)
  | fin (v : Binary64)
  deriving DecidableEq, Repr

/-- The number value of a natural number that binary64 represents exactly. -/
def Binary64.ofNat (n : Nat) : Binary64 := ⟨false, n, 0⟩

/-- Whether `a / b` is at least `2 ^ k` (for `b > 0`). -/
def geTwoPow (a b : Nat) (k : Int) : Bool :=
  if 0 ≤ k then decide (b * 2 ^ k.toNat ≤ a) else decide (b ≤ a * 2 ^ (-k).toNat)

/-- Position of the highest set bit of `n` (`0` for `n < 2`); the first
argument bounds the number of halvings. -/
def floorLog2 : Nat → Nat → Nat
  | 0, _ => 0
  | fuel + 1, n => if n < 2 then 0 else floorLog2 fuel (n / 2) + 1

/-- Rounding of the exact value `a / b` (with `b > 0`) and sign `neg` to the
nearest binary64 value, ties to even, with gradual underflow and overflow to
infinity: the rounding that `ToNumber` applies to the mathematical value of a
numeric string. -/
def roundBinary64 (neg : Bool) (a b : Nat) : JSNum :=
  if a = 0 then .fin ⟨neg, 0, 0⟩ else
  let k : Int := (floorLog2 a a : Int) - (floorLog2 b b : Int)
  let e : Int := if geTwoPow a b k then k else k - 1
  let p : Int := max e (-1022) - 52
  let num : Nat := if 0 ≤ p then a else a * 2 ^ (-p).toNat
  let den : Nat := if 0 ≤ p then b * 2 ^ p.toNat else b
  let q := num / den
  let r := num % den
  let n := if 2 * r < den then q else if den < 2 * r then q + 1
    else if q % 2 = 0 then q else q + 1
  if 971 < p ∨ (p = 971 ∧ 2 ^ 53 ≤ n) then .inf neg else .fin ⟨neg, n, p⟩

/-- Whether the finite value is less than the natural number `n`. -/
def Binary64.ltNat (v : Binary64) (n : Nat) : Bool :=
  if v.neg then decide (v.mant ≠ 0 ∨ 0 < n)
  else if 0 ≤ v.exp then decide (v.mant * 2 ^ v.exp.toNat < n)
  else decide (v.mant < n * 2 ^ (-v.exp).toNat)

/-- The abstract relational comparison `x < n` against an array length or
zero: `none` is the `undefined` that a `NaN` operand produces. -/
def JSNum.ltNat : JSNum → Nat → Option Bool
  | .nan, _ => none
  | .inf neg, _ => some neg
  | .fin v, n => some (v.ltNat n)

/-- The operator `x < n`: an undefined comparison is `false`. -/
def JSNum.lessThan (x : JSNum) (n : Nat) : Bool := x.ltNat n == some true

/-- The operator `x >= n`: the negation of `x < n`, and `false` when the
comparison is undefined. -/
def JSNum.greaterEq (x : JSNum) (n : Nat) : Bool := x.ltNat n == some false

/-- An integer or an infinity. -/
inductive ExtInt where
  | negInf
  | int (i : Int)
  | posInf
  deriving DecidableEq, Repr

/-- The coercion `ToIntegerOrInfinity`: `NaN` becomes `0`, a finite value is
truncated towards zero. -/
def toIntegerOrInfinity : JSNum → ExtInt
  | .nan => .int 0
  | .inf true => .negInf
  | .inf false => .posInf
  | .fin v =>
    let m : Nat := if 0 ≤ v.exp then v.mant * 2 ^ v.exp.toNat else v.mant / 2 ^ (-v.exp).toNat
    .int (if v.neg then -(m : Int) else (m : Int))

/-- The natural number that a number value equals, if any (`-0` is `0`). -/
def JSNum.toNat? : JSNum → Option Nat
  | .fin v =>
    if v.mant = 0 then some 0
    else if v.neg then none
    else if 0 ≤ v.exp then some (v.mant * 2 ^ v.exp.toNat)
    else if v.mant % 2 ^ (-v.exp).toNat = 0 then some (v.mant / 2 ^ (-v.exp).toNat)
    else none
  | _ => none

/-! ## `ToNumber` applied to a string -/

/-- The characters `StrWhiteSpaceChar`: white space and line terminators. -/
def isStrWhiteSpaceChar (c : Char) : Bool :=
  let n := c.toNat
  n == 9 || n == 10 || n == 11 || n == 12 || n == 13 || n == 32 || n == 160 ||
  n == 5760 || (8192 ≤ n && n ≤ 8202) || n == 8232 || n == 8233 || n == 8239 ||
  n == 8287 || n == 12288 || n == 65279

/-- The value of a digit in the given radix (2, 8, 10 or 16). -/
def digitValue (radix : Nat) (c : Char) : Option Nat :=
  let n := c.toNat
  let v : Option Nat :=
    if 48 ≤ n ∧ n ≤ 57 then some (n - 48)
    else if 97 ≤ n ∧ n ≤ 102 then some (n - 87)
    else if 65 ≤ n ∧ n ≤ 70 then some (n - 55)
    else none
  match v with
  | some d => if d < radix then some d else none
  | none => none

/-- Reads the longest run of digits: the value accumulated onto `acc`, the
number of digits read, and the remaining characters. -/
def takeDigits (radix : Nat) : Nat → Nat → List Char → Nat × Nat × List Char
  | acc, cnt, [] => (acc, cnt, [])
  | acc, cnt, c :: cs =>
    match digitValue radix c with
    | some d => takeDigits radix (acc * radix + d) (cnt + 1) cs
    | none => (acc, cnt, c :: cs)

/-- The production `NonDecimalIntegerLiteral`: `0x`, `0o` or `0b` followed by
at least one digit.  Returns the integer and the remaining characters. -/
def nonDecimalLiteral : List Char → Option (Nat × List Char)
  | z :: t :: cs =>
    if z = '0' then
      let radix : Nat :=
        if t = 'x' ∨ t = 'X' then 16 else if t = 'o' ∨ t = 'O' then 8
        else if t = 'b' ∨ t = 'B' then 2 else 0
      if radix = 0 then none
      else
        match takeDigits radix 0 0 cs with
        | (_, 0, _) => none
        | (v, _, rest) => some (v, rest)
    else none
  | _ => none

/-- The production `ExponentPart`: `e` or `E`, an optional sign and at least
one digit.  When the characters do not start with an exponent part the
exponent is `0` and nothing is consumed. -/
def exponentPart : List Char → Int × List Char
  | c :: cs =>
    if c = 'e' ∨ c = 'E' then
      match cs with
      | s :: ds =>
        if s = '+' ∨ s = '-' then
          match takeDigits 10 0 0 ds with
          | (_, 0, _) => (0, c :: cs)
          | (v, _, rest) => (if s = '-' then -(v : Int) else (v : Int), rest)
        else
          match takeDigits 10 0 0 cs with
          | (_, 0, _) => (0, c :: cs)
          | (v, _, rest) => ((v : Int), rest)
      | [] => (0, c :: cs)
    else (0, c :: cs)
  | [] => (0, [])

/-- The number with decimal significand `m` and decimal exponent `e`. -/
def decimalValue (neg : Bool) (m : Nat) (e : Int) : JSNum :=
  if 0 ≤ e then roundBinary64 neg (m * 10 ^ e.toNat) 1
  else roundBinary64 neg m (10 ^ (-e).toNat)

/-- The production `StrUnsignedDecimalLiteral`: `Infinity`, or digits with an
optional fraction and exponent, or a fraction with an optional exponent.  At
least one digit has to stand before or after the point. -/
def unsignedDecimalLiteral (neg : Bool) (cs : List Char) : Option (JSNum × List Char) :=
  if ['I', 'n', 'f', 'i', 'n', 'i', 't', 'y'].isPrefixOf cs then some (.inf neg, cs.drop 8)
  else
    match takeDigits 10 0 0 cs with
    | (i, n, []) => if n = 0 then none else some (decimalValue neg i 0, [])
    | (i, n, c :: fs) =>
      if c = '.' then
        match takeDigits 10 i 0 fs with
        | (m, k, rest) =>
          if n = 0 ∧ k = 0 then none
          else some (decimalValue neg m ((exponentPart rest).1 - k), (exponentPart rest).2)
      else if n = 0 then none
      else some (decimalValue neg i (exponentPart (c :: fs)).1, (exponentPart (c :: fs)).2)

/-- The production `StrNumericLiteral`: a non-decimal integer literal, or a
decimal literal with an optional sign. -/
def strNumericLiteral (cs : List Char) : Option (JSNum × List Char) :=
  match nonDecimalLiteral cs with
  | some (v, rest) => some (roundBinary64 false v 1, rest)
  | none =>
    match cs with
    | [] => none
    | c :: ds =>
      if c = '+' then unsignedDecimalLiteral false ds
      else if c = '-' then unsignedDecimalLiteral true ds
      else unsignedDecimalLiteral false (c :: ds)

/-- The coercion `ToNumber` on a string (`StringToNumber`): surrounding white
space is ignored, the empty string is `+0`, a `StrNumericLiteral` has its
rounded value and every other string is `NaN`. -/
def toNumber (s : String) : JSNum :=
  match s.data.dropWhile isStrWhiteSpaceChar with
  | [] => .fin ⟨false, 0, 0⟩
  | cs =>
    match strNumericLiteral cs with
    | some (x, rest) => if rest.all isStrWhiteSpaceChar then x else .nan
    | none => .nan

/-- The production `ArrayIndex` read as a property key: the canonical decimal
string of a natural number (digits only, no leading zero except for `0`
itself).  `tasks[index]` reaches the element at position `i` exactly when the
key is the canonical decimal string of `i`. -/
def elementKey? (s : String) : Option Nat :=
  match s.data with
  | [] => none
  | c :: cs =>
    if c = '0' ∧ cs ≠ [] then none
    else
      match takeDigits 10 0 0 (c :: cs) with
      | (v, _, []) => some v
      | _ => none

/-! ## JSON values and property access -/

/-- A JSON value, as `JSON.parse` returns it and `JSON.stringify` writes it.
The members of an object are kept in property order, one per key.  A number
is a finite value, read up to the sign of zero (`-0` is written as `0`); a
literal that overflows binary64 is not covered. -/
inductive JSON where
  | null
  | bool (b : Bool)
  | num (v : Binary64)
  | str (s : String)
  | arr (items : List JSON)
  | obj (members : List (String × JSON))

/-- An exception thrown by the JavaScript runtime. -/
inductive JSError where
  | typeError
  deriving DecidableEq, Repr

/-- The coercion `ToBoolean` on a JSON value. -/
def JSON.truthy : JSON → Bool
  | .null => false
  | .bool b => b
  | .num v => v.mant != 0
  | .str s => s != ""
  | .arr _ => true
  | .obj _ => true

/-- The coercion `ToBoolean`; `none` is `undefined`. -/
def truthy : Option JSON → Bool
  | none => false
  | some v => v.truthy

/-- The expression `x || []`. -/
def orEmpty (x : Option JSON) : JSON :=
  match x with
  | some v => if v.truthy then v else .arr []
  | none => .arr []

/-- The own property `k` of an object with the given members. -/
def getField (k : String) : List (String × JSON) → Option JSON
  | [] => none
  | (k', v) :: rest => if k' = k then some v else getField k rest

/-- The members after the assignment `o[k] = v`: an existing property keeps
its place, a new one is added last. -/
def setField (k : String) (v : JSON) : List (String × JSON) → List (String × JSON)
  | [] => [(k, v)]
  | (k', v') :: rest => if k' = k then (k, v) :: rest else (k', v') :: setField k v rest

/-- The members without the property `k`. -/
def eraseField (k : String) : List (String × JSON) → List (String × JSON)
  | [] => []
  | (k', v') :: rest => if k' = k then eraseField k rest else (k', v') :: eraseField k rest

/-- The property read `o.k` for one of the names `tasks`, `notes` and `done`,
which no built-in prototype defines: a `TypeError` on `null`, the own property
of an object, and `undefined` on every other value. -/
def JSON.getProp (o : JSON) (k : String) : Except JSError (Option JSON) :=
  match o with
  | .null => .error .typeError
  | .obj ms => .ok (getField k ms)
  | _ => .ok none

/-- The assignment `o.k = v` for one of the names `tasks`, `notes` and `done`,
as `JSON.stringify` sees the value afterwards: a `TypeError` on `null`; an
object gets the property, which is left out of the output when `v` is
`undefined`; an array gets a property that is not written out; a string,
number or boolean ignores the assignment (the module is not in strict mode). -/
def JSON.setProp (o : JSON) (k : String) (v : Option JSON) : Except JSError JSON :=
  match o with
  | .null => .error .typeError
  | .obj ms =>
    match v with
    | some x => .ok (.obj (setField k x ms))
    | none => .ok (.obj (eraseField k ms))
  | o => .ok o

/-- The number of UTF-16 code units of a string. -/
def utf16Length (s : String) : Nat :=
  (s.data.map fun c => if c.toNat < 65536 then 1 else 2).sum

/-- The property read `x.length` on a value that is not `null`. -/
def JSON.lengthProp : JSON → Option JSON
  | .arr xs => some (.num (Binary64.ofNat xs.length))
  | .str s => some (.num (Binary64.ofNat (utf16Length s)))
  | .obj ms => getField "length" ms
  | _ => none

/-- The method `Array.prototype.filter` with a callback that may throw. -/
def arrayFilter (f : JSON → Except JSError Bool) : List JSON → Except JSError (List JSON)
  | [] => .ok []
  | t :: ts =>
    match f t with
    | .error e => .error e
    | .ok keep =>
      match arrayFilter f ts with
      | .error e => .error e
      | .ok r => .ok (if keep then t :: r else r)

/-- The callback `t => t.done`. -/
def isDone (t : JSON) : Except JSError Bool :=
  match t.getProp "done" with
  | .error e => .error e
  | .ok d => .ok (truthy d)

/-- The callback `t => !t.done`. -/
def notDone (t : JSON) : Except JSError Bool :=
  match t.getProp "done" with
  | .error e => .error e
  | .ok d => .ok (!truthy d)

/-- The start position that `Array.prototype.splice` computes from its first
argument for an array of length `len`. -/
def spliceStart (len : Nat) : ExtInt → Nat
  | .negInf => 0
  | .posInf => len
  | .int i => if i < 0 then ((len : Int) + i).toNat else min i.toNat len

/-- The call `xs.splice(start, 1)`: the removed elements and the array that
remains. -/
def splice1 (xs : List JSON) (start : JSNum) : List JSON × List JSON :=
  let a := spliceStart xs.length (toIntegerOrInfinity start)
  let cnt := min 1 (xs.length - a)
  ((xs.drop a).take cnt, xs.take a ++ xs.drop (a + cnt))

/-! ## The memory file -/

/-- The memory file `agent_memory.json`, identified with the outcome of
reading it. -/
inductive MemoryFile where
  | missing
  | unreadable
  | malformed
  | holds (v : JSON)

/-- The file together with the number of completed writes to it. -/
structure Disk where
  file : MemoryFile
  writes : Nat

/-- The fallback document `{ tasks: [], notes: [] }`. -/
def emptyMemory : JSON := .obj [("tasks", .arr []), ("notes", .arr [])]

/-- The helper `readMemory`: the parsed content of an existing file; the
fallback document when the file does not exist or reading or parsing
throws. -/
def readMemory : MemoryFile → JSON
  | .missing => emptyMemory
  | .unreadable => emptyMemory
  | .malformed => emptyMemory
  | .holds v => v

/-- The helper `writeMemory`: `true` and the file replaced by the serialised
data when `fs.writeFileSync` succeeds (`fsOk`), `false` and the file as it
was when it throws. -/
def writeMemory (fsOk : Bool) (d : Disk) (data : JSON) : Bool × Disk :=
  if fsOk then (true, ⟨.holds data, d.writes + 1⟩) else (false, d)

/-! ## Responses -/

/-- The answer to a request: a JSON body with a status; the status 500 that
Express gives to an exception escaping the handler (`uncaught`); or
`unmodelled`, when the outcome depends on parts of the runtime outside this
embedding: an index-addressed request on a collection that is not an array,
and `tasks[index]` with a non-numeric key, which may name a built-in property
of arrays. -/
inductive Response where
  | json (status : Nat) (body : JSON)
  | uncaught
  | unmodelled

/-- The body `{ error: msg }`. -/
def errorBody (msg : String) : JSON := .obj [("error", .str msg)]

/-! ## The handlers

Every handler takes the disk and the inputs of the request and returns the
response and the disk afterwards. -/

/-- Handler of `GET /api/tasks`. -/
def listTasks (d : Disk) : Response × Disk :=
  let memory := readMemory d.file
  match memory.getProp "tasks" with
  | .error _ => (.uncaught, d)
  | .ok t => (.json 200 (orEmpty t), d)

/-- Handler of `GET /api/tasks/pending`. -/
def listPending (d : Disk) : Response × Disk :=
  let memory := readMemory d.file
  match memory.getProp "tasks" with
  | .error _ => (.uncaught, d)
  | .ok t =>
    match orEmpty t with
    | .arr xs =>
      match arrayFilter notDone xs with
      | .error _ => (.uncaught, d)
      | .ok tasks => (.json 200 (.arr tasks), d)
    | _ => (.uncaught, d)

/-- The common shape of `POST /api/tasks` and `POST /api/notes`: `given` is
the required field of the body, `mk` builds the new element from it and `key`
names the collection. -/
def addEntry (key required failed : String) (given : Option JSON) (mk : JSON → JSON)
    (d : Disk) (fsOk : Bool) : Response × Disk :=
  match given with
  | none => (.json 400 (errorBody required), d)
  | some g =>
    if !g.truthy then (.json 400 (errorBody required), d)
    else
      let memory := readMemory d.file
      let entry := mk g
      match memory.getProp key with
      | .error _ => (.uncaught, d)
      | .ok t =>
        match memory with
        | .obj ms =>
          match orEmpty t with
          | .arr xs =>
            match writeMemory fsOk d (.obj (setField key (.arr (xs ++ [entry])) ms)) with
            | (true, d') => (.json 201 entry, d')
            | (false, d') => (.json 500 (errorBody failed), d')
          | _ => (.uncaught, d)
        | .arr items =>
          match writeMemory fsOk d (.arr items) with
          | (true, d') => (.json 201 entry, d')
          | (false, d') => (.json 500 (errorBody failed), d')
        | _ => (.uncaught, d)

/-- The element that `POST /api/tasks` creates. -/
def newTask (task : JSON) (now : String) : JSON :=
  .obj [("task", task), ("done", .bool false), ("added", .str now)]

/-- The element that `POST /api/notes` creates. -/
def newNote (note : JSON) (now : String) : JSON :=
  .obj [("note", note), ("time", .str now)]

/-- Handler of `POST /api/tasks`; `task` is the field `task` of the body and
`now` the current time. -/
def addTask (d : Disk) (task : Option JSON) (now : String) (fsOk : Bool) : Response × Disk :=
  addEntry "tasks" "Task text required" "Failed to save task" task
    (fun task => newTask task now) d fsOk

/-- Handler of `POST /api/notes`; `note` is the field `note` of the body. -/
def addNote (d : Disk) (note : Option JSON) (now : String) (fsOk : Bool) : Response × Disk :=
  addEntry "notes" "Note text required" "Failed to save note" note
    (fun note => newNote note now) d fsOk

/-- Handler of `PUT /api/tasks/:index`; `done` is the field `done` of the
body. -/
def updateTask (d : Disk) (index : String) (done : Option JSON) (fsOk : Bool) :
    Response × Disk :=
  let memory := readMemory d.file
  match memory.getProp "tasks" with
  | .error _ => (.uncaught, d)
  | .ok t =>
    if (toNumber index).lessThan 0 then (.json 404 (errorBody "Task not found"), d)
    else
      match orEmpty t with
      | .arr xs =>
        if (toNumber index).greaterEq xs.length then
          (.json 404 (errorBody "Task not found"), d)
        else
          match elementKey? index with
          | none =>
            if toNumber index = .nan then (.unmodelled, d) else (.uncaught, d)
          | some i =>
            match xs.get? i with
            | none => (.uncaught, d)
            | some x =>
              match x.setProp "done" done with
              | .error _ => (.uncaught, d)
              | .ok x' =>
                match memory.setProp "tasks" (some (.arr (xs.set i x'))) with
                | .error _ => (.uncaught, d)
                | .ok memory' =>
                  match writeMemory fsOk d memory' with
                  | (true, d') => (.json 200 x', d')
                  | (false, d') => (.json 500 (errorBody "Failed to update task"), d')
      | _ => (.unmodelled, d)

/-- The common shape of `DELETE /api/tasks/:index` and
`DELETE /api/notes/:index`. -/
def deleteEntry (key notFound failed : String) (d : Disk) (index : String) (fsOk : Bool) :
    Response × Disk :=
  let memory := readMemory d.file
  match memory.getProp key with
  | .error _ => (.uncaught, d)
  | .ok t =>
    if (toNumber index).lessThan 0 then (.json 404 (errorBody notFound), d)
    else
      match orEmpty t with
      | .arr xs =>
        if (toNumber index).greaterEq xs.length then (.json 404 (errorBody notFound), d)
        else
          let deleted := (splice1 xs (toNumber index)).1
          let rest := (splice1 xs (toNumber index)).2
          match memory.setProp key (some (.arr rest)) with
          | .error _ => (.uncaught, d)
          | .ok memory' =>
            match writeMemory fsOk d memory' with
            | (true, d') =>
              match deleted.head? with
              | some x => (.json 200 (.obj [("deleted", x)]), d')
              | none => (.json 200 (.obj []), d')
            | (false, d') => (.json 500 (errorBody failed), d')
      | _ => (.unmodelled, d)

/-- Handler of `DELETE /api/tasks/:index`. -/
def deleteTask (d : Disk) (index : String) (fsOk : Bool) : Response × Disk :=
  deleteEntry "tasks" "Task not found" "Failed to delete task" d index fsOk

/-- Handler of `GET /api/notes`. -/
def listNotes (d : Disk) : Response × Disk :=
  let memory := readMemory d.file
  match memory.getProp "notes" with
  | .error _ => (.uncaught, d)
  | .ok n => (.json 200 (orEmpty n), d)

/-- Handler of `DELETE /api/notes/:index`. -/
def deleteNote (d : Disk) (index : String) (fsOk : Bool) : Response × Disk :=
  deleteEntry "notes" "Note not found" "Failed to delete note" d index fsOk

/-- The number `n` as a JSON value. -/
def JSON.ofNat (n : Nat) : JSON := .num (Binary64.ofNat n)

/-- Handler of `GET /api/stats`. -/
def stats (d : Disk) : Response × Disk :=
  let memory := readMemory d.file
  match memory.getProp "tasks", memory.getProp "notes" with
  | .ok t, .ok n =>
    match orEmpty t with
    | .arr xs =>
      match arrayFilter isDone xs, arrayFilter notDone xs with
      | .ok completed, .ok pending =>
        let counts := [("totalTasks", JSON.ofNat xs.length),
          ("completedTasks", JSON.ofNat completed.length),
          ("pendingTasks", JSON.ofNat pending.length)]
        match (orEmpty n).lengthProp with
        | some l => (.json 200 (.obj (counts ++ [("totalNotes", l)])), d)
        | none => (.json 200 (.obj counts), d)
      | _, _ => (.uncaught, d)
    | _ => (.uncaught, d)
  | _, _ => (.uncaught, d)

/-- Handler of `GET /api/health`. -/
def health (d : Disk) : Response × Disk :=
  (.json 200 (.obj [("status", .str "Server running"), ("port", JSON.ofNat 5000)]), d)

/-! ## Sequences of requests -/

/-- A request that can change the stored document. -/
inductive Request where
  | addTask (task : Option JSON) (now : String)
  | updateTask (index : String) (done : Option JSON)
  | deleteTask (index : String)
  | addNote (note : Option JSON) (now : String)
  | deleteNote (index : String)

/-- The handler that serves the request. -/
def handle (d : Disk) (fsOk : Bool) : Request → Response × Disk
  | .addTask task now => addTask d task now fsOk
  | .updateTask index done => updateTask d index done fsOk
  | .deleteTask index => deleteTask d index fsOk
  | .addNote note now => addNote d note now fsOk
  | .deleteNote index => deleteNote d index fsOk

/-- The disks that the server reaches from the empty document (no memory
file yet, or a file holding `{ tasks: [], notes: [] }`) by serving requests,
with any bodies, route parameters and write outcomes.  A request whose
response is `Response.unmodelled` is not followed. -/
inductive Reachable : Disk → Prop where
  | missing (n : Nat) : Reachable ⟨.missing, n⟩
  | empty (n : Nat) : Reachable ⟨.holds emptyMemory, n⟩
  | step {d : Disk} (r : Request) (fsOk : Bool) :
      Reachable d → (handle d fsOk r).1 ≠ .unmodelled → Reachable (handle d fsOk r).2

/-! ## Predicates of the statements -/

/-- The element is a task (an object) whose `done` field is the boolean `b`. -/
def doneIs (b : Bool) (t : JSON) : Bool :=
  match t with
  | .obj ms =>
    match getField "done" ms with
    | some (.bool b') => b' == b
    | _ => false
  | _ => false

/-- The value is a JSON object. -/
def JSON.IsObject (t : JSON) : Prop := ∃ ms, t = .obj ms

/-- The value is a document whose `tasks` are a sequence of objects and whose
`notes` are a sequence. -/
def GoodDocument (v : JSON) : Prop :=
  ∃ ms ts ns, v = .obj ms ∧ getField "tasks" ms = some (.arr ts) ∧
    getField "notes" ms = some (.arr ns) ∧ ∀ t ∈ ts, t.IsObject

/-! ## Sample data -/

/-- A sample disk: a document with two tasks and one note. -/
def sampleDisk : Disk :=
  ⟨.holds (.obj [
    ("tasks", .arr [
      .obj [("task", .str "buy milk"), ("done", .bool false), ("added", .str "t0")],
      .obj [("task", .str "call bob"), ("done", .bool true), ("added", .str "t1")]]),
    ("notes", .arr [.obj [("note", .str "hello"), ("time", .str "t2")]])]), 0⟩

/-- The disk of the scenario of the specification: starting without a memory
file, `POST /tasks` with the task `buy milk`, then `PUT /tasks/0` with
`done: true`. -/
def scenarioDisk : Disk :=
  (handle (handle ⟨.missing, 0⟩ true (.addTask (some (.str "buy milk")) "t0")).2 true
    (.updateTask "0" (some (.bool true)))).2

/-! ## Coercions, `splice` and property access: basic facts -/



/-- The three ways in which a finite value equals a natural number. -/
theorem toNat_fin_cases {neg : Bool} {m : Nat} {e : Int} {i : Nat}
    (h : (JSNum.fin ⟨neg, m, e⟩).toNat? = some i) :
    (m = 0 ∧ i = 0) ∨ (m ≠ 0 ∧ neg = false ∧ 0 ≤ e ∧ i = m * 2 ^ e.toNat) ∨
    (m ≠ 0 ∧ neg = false ∧ ¬ 0 ≤ e ∧ m % 2 ^ (-e).toNat = 0 ∧ i = m / 2 ^ (-e).toNat) := by
  simp only [JSNum.toNat?] at h
  split_ifs at h with h1 h2 h3 h4
  · left; exact ⟨h1, (Option.some.inj h).symm⟩
  · right; left; exact ⟨h1, by simpa using h2, h3, (Option.some.inj h).symm⟩
  · right; right; exact ⟨h1, by simpa using h2, h3, h4, (Option.some.inj h).symm⟩

/-- A value that equals the natural number `i` compares like `i`. -/
theorem ltNat_of_toNat {x : JSNum} {i : Nat} (h : x.toNat? = some i) (n : Nat) :
    x.ltNat n = some (decide (i < n)) := by
  cases x with
  | nan => simp [JSNum.toNat?] at h
  | inf b => simp [JSNum.toNat?] at h
  | fin v =>
    obtain ⟨neg, m, e⟩ := v
    simp only [JSNum.ltNat, Binary64.ltNat]
    rcases toNat_fin_cases h with ⟨hm, hi⟩ | ⟨_, hneg, he, hi⟩ | ⟨_, hneg, he, hd, hi⟩
    · subst hm hi
      cases neg <;> by_cases he : 0 ≤ e <;> simp [he]
    · subst hneg hi
      simp [he]
    · subst hneg hi
      have hpos : 0 < 2 ^ (-e).toNat := Nat.pow_pos (by decide)
      simp only [he, if_false, Bool.false_eq_true]
      congr 1
      rw [decide_eq_decide]
      exact (Nat.div_lt_iff_lt_mul hpos).symm

/-- A value that equals the natural number `i` truncates to `i`. -/
theorem toInteger_of_toNat {x : JSNum} {i : Nat} (h : x.toNat? = some i) :
    toIntegerOrInfinity x = .int i := by
  cases x with
  | nan => simp [JSNum.toNat?] at h
  | inf b => simp [JSNum.toNat?] at h
  | fin v =>
    obtain ⟨neg, m, e⟩ := v
    simp only [toIntegerOrInfinity]
    rcases toNat_fin_cases h with ⟨hm, hi⟩ | ⟨_, hneg, he, hi⟩ | ⟨_, hneg, he, hd, hi⟩
    · subst hm hi
      cases neg <;> by_cases he : 0 ≤ e <;> simp [he]
    · subst hneg hi
      simp [he]
    · subst hneg hi
      simp [he]

/-- In range, `splice(i, 1)` removes exactly the element at position `i`. -/
theorem splice1_inRange (xs : List JSON) (x : JSNum) (i : Nat) (h : x.toNat? = some i)
    (hi : i < xs.length) :
    splice1 xs x = ((xs.get? i).toList, xs.eraseIdx i) := by
  simp only [splice1, toInteger_of_toNat h, spliceStart]
  have h1 : ¬ ((i : Int) < 0) := by omega
  have h2 : min i xs.length = i := by omega
  have h3 : min 1 (xs.length - i) = 1 := by omega
  simp only [h1, if_false, Int.toNat_ofNat, h2, h3]
  congr 1
  · rw [List.get?_eq_getElem?, List.getElem?_eq_getElem hi]
    simp [List.take_one, List.head?_drop, List.getElem?_eq_getElem hi]
  · exact (List.eraseIdx_eq_take_drop_succ xs i).symm


theorem getField_setField_same (k : String) (v : JSON) (ms : List (String × JSON)) :
    getField k (setField k v ms) = some v := by
  induction ms with
  | nil => simp [setField, getField]
  | cons m rest ih =>
    obtain ⟨k', v'⟩ := m
    by_cases h : k' = k
    · simp [setField, getField, h]
    · simp [setField, getField, h, ih]

theorem getField_setField_ne {k k' : String} (h : k' ≠ k) (v : JSON)
    (ms : List (String × JSON)) :
    getField k' (setField k v ms) = getField k' ms := by
  induction ms with
  | nil => simp [setField, getField, h.symm]
  | cons m rest ih =>
    obtain ⟨k₀, v₀⟩ := m
    by_cases h₀ : k₀ = k
    · subst h₀
      simp [setField, getField, h.symm]
    · by_cases h₁ : k₀ = k'
      · subst h₁
        simp [setField, getField, h]
      · simp [setField, getField, h₀, h₁, ih]

theorem setField_setField_same (k : String) (v w : JSON) (ms : List (String × JSON)) :
    setField k w (setField k v ms) = setField k w ms := by
  induction ms with
  | nil => simp [setField]
  | cons m rest ih =>
    obtain ⟨k', v'⟩ := m
    by_cases h : k' = k
    · simp [setField, h]
    · simp [setField, h, ih]

theorem orEmpty_arr (xs : List JSON) : orEmpty (some (.arr xs)) = .arr xs := by
  simp [orEmpty, JSON.truthy]

/-- The delete handlers on an index in range, with a successful write. -/
theorem deleteEntry_inRange (key notFound failed : String) (d : Disk)
    (ms : List (String × JSON)) (ts : List JSON) (index : String) (i : Nat)
    (hdoc : readMemory d.file = .obj ms) (hts : orEmpty (getField key ms) = .arr ts)
    (hidx : (toNumber index).toNat? = some i) (hi : i < ts.length) :
    deleteEntry key notFound failed d index true =
      (.json 200 (.obj [("deleted", ts[i])]),
       ⟨.holds (.obj (setField key (.arr (ts.eraseIdx i)) ms)), d.writes + 1⟩) := by
  have hlt0 : (toNumber index).lessThan 0 = false := by
    simp [JSNum.lessThan, ltNat_of_toNat hidx]
  have hge : (toNumber index).greaterEq ts.length = false := by
    simp [JSNum.greaterEq, ltNat_of_toNat hidx, hi]
  simp only [deleteEntry, hdoc, JSON.getProp, hts, hlt0, hge, splice1_inRange ts _ i hidx hi,
    JSON.setProp, writeMemory]
  simp [List.getElem?_eq_getElem hi]

/-- The delete handlers when the bounds check fires. -/
theorem deleteEntry_outOfRange (key notFound failed : String) (d : Disk)
    (ms : List (String × JSON)) (ts : List JSON) (index : String) (fsOk : Bool)
    (hdoc : readMemory d.file = .obj ms) (hts : orEmpty (getField key ms) = .arr ts)
    (hidx : (toNumber index).lessThan 0 = true ∨ (toNumber index).greaterEq ts.length = true) :
    deleteEntry key notFound failed d index fsOk = (.json 404 (errorBody notFound), d) := by
  simp only [deleteEntry, hdoc, JSON.getProp, hts]
  rcases hidx with h | h
  · simp [h]
  · by_cases h0 : (toNumber index).lessThan 0 = true <;> simp [h0, h]

/-- C1: for every document and every route parameter whose numeric value is an
index `i` with `0 <= i < length`, delete-task with a successful save answers
200 with the old `i`-th element as `deleted` and stores the old tasks sequence
without its `i`-th element: one element shorter, unchanged before `i`,
shifted left by one from `i` on, and returned so by list-tasks. -/
theorem deleteTask_removes_exactly_one (d : Disk) (ms : List (String × JSON))
    (ts : List JSON) (index : String) (i : Nat)
    (hdoc : readMemory d.file = .obj ms)
    (htasks : orEmpty (getField "tasks" ms) = .arr ts)
    (hidx : (toNumber index).toNat? = some i) (hi : i < ts.length) :
    deleteTask d index true =
      (.json 200 (.obj [("deleted", ts[i])]),
       ⟨.holds (.obj (setField "tasks" (.arr (ts.eraseIdx i)) ms)), d.writes + 1⟩) ∧
    (listTasks (deleteTask d index true).2).1 = .json 200 (.arr (ts.eraseIdx i)) ∧
    (ts.eraseIdx i).length + 1 = ts.length ∧
    (∀ j, j < i → (ts.eraseIdx i)[j]? = ts[j]?) ∧
    (∀ j, i ≤ j → (ts.eraseIdx i)[j]? = ts[j + 1]?) := by
  have h := deleteEntry_inRange "tasks" "Task not found" "Failed to delete task" d ms ts
    index i hdoc htasks hidx hi
  refine ⟨h, ?_, ?_, ?_, ?_⟩
  · simp only [deleteTask, h, listTasks, readMemory, JSON.getProp, getField_setField_same,
      orEmpty_arr]
  · rw [List.length_eraseIdx]
    simp only [hi, if_true]
    omega
  · intro j hj
    rw [List.getElem?_eraseIdx]
    simp [hj]
  · intro j hj
    rw [List.getElem?_eraseIdx]
    have : ¬ j < i := by omega
    simp [this]

theorem deleteTask_removes_exactly_one_witness :
    deleteTask sampleDisk "1" true =
      (.json 200 (.obj [("deleted",
        .obj [("task", .str "call bob"), ("done", .bool true), ("added", .str "t1")])]),
       ⟨.holds (.obj [
        ("tasks", .arr [
          .obj [("task", .str "buy milk"), ("done", .bool false), ("added", .str "t0")]]),
        ("notes", .arr [.obj [("note", .str "hello"), ("time", .str "t2")]])]), 1⟩) :=
  (deleteTask_removes_exactly_one sampleDisk _ _ "1" 1 rfl rfl (by decide) (by decide)).1

/-- The update handler when the bounds check fires. -/
theorem updateTask_outOfRange (d : Disk) (ms : List (String × JSON)) (ts : List JSON)
    (index : String) (done : Option JSON) (fsOk : Bool)
    (hdoc : readMemory d.file = .obj ms) (hts : orEmpty (getField "tasks" ms) = .arr ts)
    (hidx : (toNumber index).lessThan 0 = true ∨ (toNumber index).greaterEq ts.length = true) :
    updateTask d index done fsOk = (.json 404 (errorBody "Task not found"), d) := by
  simp only [updateTask, hdoc, JSON.getProp, hts]
  rcases hidx with h | h
  · simp [h]
  · by_cases h0 : (toNumber index).lessThan 0 = true <;> simp [h0, h]

/-- C2: for every document and every route parameter whose numeric value is
below zero or at least the length of the addressed sequence (the comparisons
`index < 0` and `index >= length` of the handlers), update-task, delete-task
and delete-note answer 404 and return the disk as it was: the file is the
same and no write was made, whatever the body and whether or not the file
system would accept a write. -/
theorem index_out_of_range_not_found (d : Disk) (ms : List (String × JSON))
    (index : String) (done : Option JSON) (fsOk : Bool)
    (hdoc : readMemory d.file = .obj ms) :
    (∀ ts, orEmpty (getField "tasks" ms) = .arr ts →
      ((toNumber index).lessThan 0 = true ∨ (toNumber index).greaterEq ts.length = true) →
      updateTask d index done fsOk = (.json 404 (.obj [("error", .str "Task not found")]), d) ∧
      deleteTask d index fsOk = (.json 404 (.obj [("error", .str "Task not found")]), d)) ∧
    (∀ ns, orEmpty (getField "notes" ms) = .arr ns →
      ((toNumber index).lessThan 0 = true ∨ (toNumber index).greaterEq ns.length = true) →
      deleteNote d index fsOk = (.json 404 (.obj [("error", .str "Note not found")]), d)) := by
  refine ⟨fun ts hts hidx => ⟨?_, ?_⟩, fun ns hns hidx => ?_⟩
  · exact updateTask_outOfRange d ms ts index done fsOk hdoc hts hidx
  · exact deleteEntry_outOfRange _ _ _ d ms ts index fsOk hdoc hts hidx
  · exact deleteEntry_outOfRange _ _ _ d ms ns index fsOk hdoc hns hidx

theorem index_out_of_range_not_found_witness :
    (updateTask sampleDisk "5" (some (.bool true)) true =
        (.json 404 (.obj [("error", .str "Task not found")]), sampleDisk) ∧
      deleteTask sampleDisk "5" true =
        (.json 404 (.obj [("error", .str "Task not found")]), sampleDisk)) ∧
    deleteNote sampleDisk "-1" true =
      (.json 404 (.obj [("error", .str "Note not found")]), sampleDisk) :=
  ⟨(index_out_of_range_not_found sampleDisk _ "5" (some (.bool true)) true rfl).1 _ rfl
      (Or.inr (by decide)),
    (index_out_of_range_not_found sampleDisk _ "-1" none true rfl).2 _ rfl
      (Or.inl (by decide))⟩

/-- C10: for every document with a non-empty tasks sequence and every route
parameter whose numeric coercion is `NaN`, both comparisons of the bounds
check are false and delete-task with a successful save answers 200, not 404:
it removes the element at position 0, stores the shortened sequence and
returns the removed element as `deleted`. -/
theorem deleteTask_non_numeric_index_removes_first (d : Disk) (ms : List (String × JSON))
    (t : JSON) (ts : List JSON) (index : String)
    (hdoc : readMemory d.file = .obj ms)
    (htasks : orEmpty (getField "tasks" ms) = .arr (t :: ts))
    (hnan : toNumber index = .nan) :
    (toNumber index).lessThan 0 = false ∧
    (toNumber index).greaterEq (t :: ts).length = false ∧
    deleteTask d index true =
      (.json 200 (.obj [("deleted", t)]),
       ⟨.holds (.obj (setField "tasks" (.arr ts) ms)), d.writes + 1⟩) := by
  refine ⟨by simp [hnan, JSNum.lessThan, JSNum.ltNat],
    by simp [hnan, JSNum.greaterEq, JSNum.ltNat], ?_⟩
  simp [deleteTask, deleteEntry, hdoc, JSON.getProp, htasks, hnan, JSNum.lessThan,
    JSNum.greaterEq, JSNum.ltNat, splice1, toIntegerOrInfinity, spliceStart, JSON.setProp,
    writeMemory]

theorem deleteTask_non_numeric_index_removes_first_witness :
    toNumber "abc" = .nan ∧
    deleteTask sampleDisk "abc" true =
      (.json 200 (.obj [("deleted",
        .obj [("task", .str "buy milk"), ("done", .bool false), ("added", .str "t0")])]),
       ⟨.holds (.obj [
        ("tasks", .arr [
          .obj [("task", .str "call bob"), ("done", .bool true), ("added", .str "t1")]]),
        ("notes", .arr [.obj [("note", .str "hello"), ("time", .str "t2")]])]), 1⟩) :=
  ⟨by decide,
    (deleteTask_non_numeric_index_removes_first sampleDisk _ _ _ "abc" rfl rfl
      (by decide)).2.2⟩

/-- C6: for every disk, add-task without a task text or with the empty text
answers 400 and returns the disk as it was: the stored document is the same
and no write was made. -/
theorem addTask_without_text_rejected (d : Disk) (now : String) (fsOk : Bool) :
    addTask d none now fsOk = (.json 400 (.obj [("error", .str "Task text required")]), d) ∧
    addTask d (some (.str "")) now fsOk =
      (.json 400 (.obj [("error", .str "Task text required")]), d) := by
  constructor <;> simp [addTask, addEntry, truthy, JSON.truthy, errorBody]

/-- C4, the failing input: when the memory file holds the JSON text `null`,
`readMemory` returns `null` and list-tasks throws on `memory.tasks`; the
request is answered with status 500 instead of 200. -/
theorem listTasks_null_memory_uncaught (n : Nat) :
    readMemory (MemoryFile.holds .null) = .null ∧
    listTasks ⟨.holds .null, n⟩ = (.uncaught, ⟨.holds .null, n⟩) := by
  simp [readMemory, listTasks, JSON.getProp]

/-- The part of C4 that holds: `readMemory` returns the empty document when
the file is missing, unreadable or not parsable, and for every file that does
not hold `null` list-tasks answers 200 with the `tasks` value of the document
(the empty sequence when the field is missing) and leaves the disk alone. -/
theorem listTasks_answers_unless_null (d : Disk) (h : d.file ≠ .holds .null) :
    readMemory .missing = emptyMemory ∧ readMemory .unreadable = emptyMemory ∧
    readMemory .malformed = emptyMemory ∧
    (∃ t, (readMemory d.file).getProp "tasks" = .ok t ∧
      listTasks d = (.json 200 (orEmpty t), d)) ∧
    orEmpty none = .arr [] := by
  refine ⟨rfl, rfl, rfl, ?_, rfl⟩
  obtain ⟨file, n⟩ := d
  cases file with
  | missing => exact ⟨_, rfl, rfl⟩
  | unreadable => exact ⟨_, rfl, rfl⟩
  | malformed => exact ⟨_, rfl, rfl⟩
  | holds v =>
    cases v with
    | null => exact absurd rfl h
    | bool b => exact ⟨_, rfl, rfl⟩
    | num b => exact ⟨_, rfl, rfl⟩
    | str b => exact ⟨_, rfl, rfl⟩
    | arr b => exact ⟨_, rfl, rfl⟩
    | obj b => exact ⟨_, rfl, rfl⟩

/-- C3: for every document and every non-empty task text `x`, add-task with a
successful save answers 201 with the new task, which carries the text `x` and
`done = false`, and list-tasks, which returned the tasks sequence `ts`
before, returns afterwards `ts` followed by exactly that new task. -/
theorem addTask_appends_new_task (d : Disk) (ms : List (String × JSON)) (ts : List JSON)
    (x now : String)
    (hdoc : readMemory d.file = .obj ms)
    (htasks : orEmpty (getField "tasks" ms) = .arr ts)
    (hx : x ≠ "") :
    (listTasks d).1 = .json 200 (.arr ts) ∧
    addTask d (some (.str x)) now true =
      (.json 201 (.obj [("task", .str x), ("done", .bool false), ("added", .str now)]),
       ⟨.holds (.obj (setField "tasks"
          (.arr (ts ++ [.obj [("task", .str x), ("done", .bool false), ("added", .str now)]]))
          ms)), d.writes + 1⟩) ∧
    (listTasks (addTask d (some (.str x)) now true).2).1 =
      .json 200
        (.arr (ts ++ [.obj [("task", .str x), ("done", .bool false), ("added", .str now)]])) := by
  have hadd : addTask d (some (.str x)) now true =
      (.json 201 (.obj [("task", .str x), ("done", .bool false), ("added", .str now)]),
       ⟨.holds (.obj (setField "tasks"
          (.arr (ts ++ [.obj [("task", .str x), ("done", .bool false), ("added", .str now)]]))
          ms)), d.writes + 1⟩) := by
    simp [addTask, addEntry, truthy, JSON.truthy, hx, hdoc, JSON.getProp, htasks, writeMemory,
      newTask]
  refine ⟨?_, hadd, ?_⟩
  · simp [listTasks, hdoc, JSON.getProp, htasks]
  · simp only [hadd, listTasks, readMemory, JSON.getProp, getField_setField_same, orEmpty_arr]

theorem addTask_appends_new_task_witness :
    (listTasks sampleDisk).1 = .json 200 (.arr [
      .obj [("task", .str "buy milk"), ("done", .bool false), ("added", .str "t0")],
      .obj [("task", .str "call bob"), ("done", .bool true), ("added", .str "t1")]]) ∧
    (listTasks (addTask sampleDisk (some (.str "x")) "t3" true).2).1 = .json 200 (.arr [
      .obj [("task", .str "buy milk"), ("done", .bool false), ("added", .str "t0")],
      .obj [("task", .str "call bob"), ("done", .bool true), ("added", .str "t1")],
      .obj [("task", .str "x"), ("done", .bool false), ("added", .str "t3")]]) :=
  ⟨(addTask_appends_new_task sampleDisk _ _ "x" "t3" rfl rfl (by decide)).1,
    (addTask_appends_new_task sampleDisk _ _ "x" "t3" rfl rfl (by decide)).2.2⟩

theorem notDone_of_doneIs {t : JSON} {b : Bool} (h : doneIs b t = true) :
    notDone t = .ok (!b) ∧ isDone t = .ok b := by
  cases t with
  | obj ms =>
    simp only [doneIs] at h
    cases hf : getField "done" ms with
    | none => simp [hf] at h
    | some v =>
      cases v with
      | bool b' =>
        simp only [hf, beq_iff_eq] at h
        subst h
        simp [notDone, isDone, JSON.getProp, hf, truthy, JSON.truthy]
      | null => simp [hf] at h
      | num _ => simp [hf] at h
      | str _ => simp [hf] at h
      | arr _ => simp [hf] at h
      | obj _ => simp [hf] at h
  | null => simp [doneIs] at h
  | bool _ => simp [doneIs] at h
  | num _ => simp [doneIs] at h
  | str _ => simp [doneIs] at h
  | arr _ => simp [doneIs] at h

theorem doneIs_exclusive {t : JSON} (h : doneIs true t = true) : doneIs false t = false := by
  have h1 := (notDone_of_doneIs h).1
  cases h2 : doneIs false t with
  | false => rfl
  | true =>
    have h3 := (notDone_of_doneIs h2).1
    rw [h1] at h3
    simp at h3

/-- On tasks with a boolean `done` the callback `t => !t.done` never throws and
keeps the tasks whose `done` is `false`. -/
theorem arrayFilter_notDone_typed (ts : List JSON)
    (htyped : ∀ t ∈ ts, doneIs true t = true ∨ doneIs false t = true) :
    arrayFilter notDone ts = .ok (ts.filter (doneIs false)) := by
  induction ts with
  | nil => rfl
  | cons t rest ih =>
    have ih' := ih (fun u hu => htyped u (List.mem_cons_of_mem _ hu))
    rcases htyped t (List.mem_cons_self _ _) with h | h
    · simp [arrayFilter, (notDone_of_doneIs h).1, ih', List.filter_cons, doneIs_exclusive h]
    · simp [arrayFilter, (notDone_of_doneIs h).1, ih', List.filter_cons, h]

/-- On tasks that are objects the callback `t => !t.done` keeps the tasks
whose `done` is falsy. -/
theorem arrayFilter_notDone_objects (ts : List JSON) (hobj : ∀ t ∈ ts, t.IsObject) :
    arrayFilter notDone ts = .ok (ts.filter fun t =>
      match t with
      | .obj tf => !truthy (getField "done" tf)
      | _ => false) := by
  induction ts with
  | nil => rfl
  | cons t rest ih =>
    obtain ⟨tf, rfl⟩ := hobj t (List.mem_cons_self _ _)
    have ih' := ih (fun u hu => hobj u (List.mem_cons_of_mem _ hu))
    cases hd : truthy (getField "done" tf) <;>
      simp [arrayFilter, notDone, JSON.getProp, hd, ih', List.filter_cons]

/-- Without the typing of `done`: on tasks that are objects list-pending keeps
the tasks whose `done` is falsy, a missing `done` included. -/
theorem listPending_keeps_falsy (d : Disk) (ms : List (String × JSON)) (ts : List JSON)
    (hdoc : readMemory d.file = .obj ms)
    (htasks : orEmpty (getField "tasks" ms) = .arr ts)
    (hobj : ∀ t ∈ ts, t.IsObject) :
    listPending d =
      (.json 200 (.arr (ts.filter fun t =>
        match t with
        | .obj tf => !truthy (getField "done" tf)
        | _ => false)), d) := by
  simp [listPending, hdoc, JSON.getProp, htasks, arrayFilter_notDone_objects ts hobj]

/-- C8: for every document whose tasks all carry a boolean `done`,
list-pending answers 200 with exactly the tasks whose `done` is `false`, in
their stored order: the answer is a subsequence of the stored sequence, every
returned task has `done = false`, every stored task with `done = false` is
returned and no task with `done = true` is returned. -/
theorem listPending_returns_not_done (d : Disk) (ms : List (String × JSON)) (ts : List JSON)
    (hdoc : readMemory d.file = .obj ms)
    (htasks : orEmpty (getField "tasks" ms) = .arr ts)
    (htyped : ∀ t ∈ ts, doneIs true t = true ∨ doneIs false t = true) :
    listPending d = (.json 200 (.arr (ts.filter (doneIs false))), d) ∧
    (ts.filter (doneIs false)).Sublist ts ∧
    (∀ t ∈ ts.filter (doneIs false), doneIs false t = true) ∧
    (∀ t ∈ ts, doneIs false t = true → t ∈ ts.filter (doneIs false)) ∧
    (∀ t ∈ ts, doneIs true t = true → t ∉ ts.filter (doneIs false)) := by
  refine ⟨?_, List.filter_sublist ts, ?_, ?_, ?_⟩
  · simp [listPending, hdoc, JSON.getProp, htasks, arrayFilter_notDone_typed ts htyped]
  · intro t ht
    exact (List.mem_filter.mp ht).2
  · intro t ht hd
    exact List.mem_filter.mpr ⟨ht, hd⟩
  · intro t _ hd hmem
    have := (List.mem_filter.mp hmem).2
    rw [doneIs_exclusive hd] at this
    exact Bool.false_ne_true this

theorem listPending_returns_not_done_witness :
    listPending sampleDisk = (.json 200 (.arr [
      .obj [("task", .str "buy milk"), ("done", .bool false), ("added", .str "t0")]]),
      sampleDisk) :=
  (listPending_returns_not_done sampleDisk _ _ rfl rfl (by
    intro t ht
    simp only [List.mem_cons, List.mem_singleton, List.not_mem_nil, or_false] at ht
    rcases ht with rfl | rfl
    · exact Or.inr rfl
    · exact Or.inl rfl)).1

/-! ## Element keys and their numeric coercion -/

theorem floorLog2_le (fuel : Nat) : ∀ n m : Nat, n < 2 ^ (m + 1) → floorLog2 fuel n ≤ m := by
  induction fuel with
  | zero => intro n m _; simp [floorLog2]
  | succ f ih =>
    intro n m h
    simp only [floorLog2]
    split_ifs with h2
    · exact Nat.zero_le _
    · cases m with
      | zero => simp at h; omega
      | succ m' =>
        have : n / 2 < 2 ^ (m' + 1) := by
          rw [Nat.div_lt_iff_lt_mul (by decide)]
          rw [pow_succ] at h
          exact h
        have := ih (n / 2) m' this
        omega

/-- Rounding is exact on the natural numbers below `2 ^ 53`. -/
theorem roundBinary64_nat (i : Nat) (hi : i < 2 ^ 53) :
    (roundBinary64 false i 1).toNat? = some i := by
  by_cases h0 : i = 0
  · subst h0
    simp [roundBinary64, JSNum.toNat?]
  · have hL : floorLog2 i i ≤ 52 := floorLog2_le i i 52 hi
    have h1 : floorLog2 1 1 = 0 := by decide
    simp only [roundBinary64, h0, if_false, h1]
    generalize hk : ((floorLog2 i i : Nat) : Int) - ((0 : Nat) : Int) = k
    have hk52 : k ≤ 52 := by omega
    generalize he : (if geTwoPow i 1 k = true then k else k - 1) = e
    have he52 : e ≤ 52 := by
      rw [← he]
      split_ifs <;> omega
    generalize hp : max e (-1022) - 52 = p
    have hp0 : p ≤ 0 := by omega
    by_cases hpz : 0 ≤ p
    · have : p = 0 := by omega
      subst this
      simp [JSNum.toNat?, h0, Nat.mod_one]
    · have hpos : 0 < 2 ^ (-p).toNat := Nat.pow_pos (by decide)
      have hne : i * 2 ^ (-p).toNat ≠ 0 := Nat.mul_ne_zero h0 (by omega)
      have h971 : ¬ (971 < p) := by omega
      have h971' : ¬ (p = 971) := by omega
      simp [JSNum.toNat?, hpz, h0, h971, h971', Nat.mul_div_cancel _ hpos, Nat.mod_one]

theorem digitValue_ten_range {c : Char} {dv : Nat} (h : digitValue 10 c = some dv) :
    48 ≤ c.toNat ∧ c.toNat ≤ 57 := by
  simp only [digitValue] at h
  split_ifs at h with h1 h2 h3 <;> first
    | exact h1
    | (simp at h; omega)

theorem digit_not_special {c : Char} {dv : Nat} (h : digitValue 10 c = some dv) :
    isStrWhiteSpaceChar c = false ∧ c ≠ '+' ∧ c ≠ '-' ∧ c ≠ 'I' := by
  have hr := digitValue_ten_range h
  refine ⟨?_, ?_, ?_, ?_⟩
  · simp only [isStrWhiteSpaceChar, Bool.or_eq_false_iff, Bool.and_eq_false_iff, beq_eq_false_iff_ne,
      decide_eq_false_iff_not]
    omega
  all_goals
    intro hc
    subst hc
    revert hr
    decide

theorem takeDigits_count_le (radix : Nat) (cs : List Char) :
    ∀ acc cnt, cnt ≤ (takeDigits radix acc cnt cs).2.1 := by
  induction cs with
  | nil => intro acc cnt; simp [takeDigits]
  | cons c rest ih =>
    intro acc cnt
    simp only [takeDigits]
    cases hd : digitValue radix c with
    | none => simp
    | some dv =>
      simp only
      exact Nat.le_trans (Nat.le_succ cnt) (ih _ _)

/-- The numeric coercion of an element key is the rounding of its value. -/
theorem toNumber_elementKey {s : String} {i : Nat} (h : elementKey? s = some i) :
    toNumber s = roundBinary64 false i 1 := by
  simp only [elementKey?] at h
  cases hs : s.data with
  | nil => simp [hs] at h
  | cons c cs =>
    simp only [hs] at h
    split_ifs at h with hz
    cases hd : digitValue 10 c with
    | none => simp [takeDigits, hd] at h
    | some dv =>
      obtain ⟨hws, hplus, hminus, hI⟩ := digit_not_special hd
      have hcnt := takeDigits_count_le 10 cs (0 * 10 + dv) (0 + 1)
      cases htd : takeDigits 10 0 0 (c :: cs) with
      | mk v r =>
        obtain ⟨n, rest⟩ := r
        have htd' : takeDigits 10 (0 * 10 + dv) (0 + 1) cs = (v, n, rest) := by
          simpa [takeDigits, hd] using htd
        rw [htd'] at hcnt
        simp only [htd] at h
        cases rest with
        | cons _ _ => simp at h
        | nil =>
          simp only [Option.some.injEq] at h
          subst h
          have hn : n ≠ 0 := by simp at hcnt; omega
          have hnd : nonDecimalLiteral (c :: cs) = none := by
            cases cs with
            | nil => simp [nonDecimalLiteral]
            | cons t cs' =>
              have : c ≠ '0' := fun hc => hz ⟨hc, by simp⟩
              simp [nonDecimalLiteral, this]
          simp [toNumber, hs, List.dropWhile, hws, strNumericLiteral, hnd, hplus, hminus,
            unsignedDecimalLiteral, List.isPrefixOf, Ne.symm hI, htd, hn, decimalValue]

/-- The canonical decimal string of a natural number below `2 ^ 53` coerces to
that number: such a route parameter is covered by every statement about a
parameter with numeric value `i`. -/
theorem toNat_of_elementKey {s : String} {i : Nat} (h : elementKey? s = some i)
    (hi : i < 2 ^ 53) : (toNumber s).toNat? = some i := by
  rw [toNumber_elementKey h]
  exact roundBinary64_nat i hi

/-- The update handler on an element key in range whose element is an object,
with a successful write. -/
theorem updateTask_inRange (d : Disk) (ms tf : List (String × JSON)) (ts : List JSON)
    (index : String) (i : Nat) (v : JSON)
    (hdoc : readMemory d.file = .obj ms) (hts : orEmpty (getField "tasks" ms) = .arr ts)
    (hkey : elementKey? index = some i) (hi : i < ts.length) (hlen : ts.length < 2 ^ 32)
    (hel : ts[i]? = some (.obj tf)) :
    updateTask d index (some v) true =
      (.json 200 (.obj (setField "done" v tf)),
       ⟨.holds (.obj (setField "tasks" (.arr (ts.set i (.obj (setField "done" v tf)))) ms)),
        d.writes + 1⟩) := by
  have hnum : (toNumber index).toNat? = some i := toNat_of_elementKey hkey (by omega)
  have hlt0 : (toNumber index).lessThan 0 = false := by
    simp [JSNum.lessThan, ltNat_of_toNat hnum]
  have hge : (toNumber index).greaterEq ts.length = false := by
    simp [JSNum.greaterEq, ltNat_of_toNat hnum, hi]
  simp [updateTask, hdoc, JSON.getProp, hts, hlt0, hge, hkey, hel, JSON.setProp, writeMemory]

/-- C5: for every document, every index `i` with `0 <= i < length` whose
element is a task object, addressed by its decimal route parameter, and every
boolean `b`, update-task with a successful save answers 200 with the task
whose `done` field is `b` and whose other fields are as before, stores that
task at position `i`, and is idempotent: the same request on the resulting
disk gives the same response and the same stored document.  The bound on the
length is the one of every JavaScript array. -/
theorem updateTask_sets_done_idempotent (d : Disk) (ms tf : List (String × JSON))
    (ts : List JSON) (index : String) (i : Nat) (b : Bool)
    (hdoc : readMemory d.file = .obj ms)
    (htasks : orEmpty (getField "tasks" ms) = .arr ts)
    (hkey : elementKey? index = some i) (hi : i < ts.length) (hlen : ts.length < 2 ^ 32)
    (hel : ts[i]? = some (.obj tf)) :
    updateTask d index (some (.bool b)) true =
      (.json 200 (.obj (setField "done" (.bool b) tf)),
       ⟨.holds (.obj (setField "tasks"
          (.arr (ts.set i (.obj (setField "done" (.bool b) tf)))) ms)), d.writes + 1⟩) ∧
    getField "done" (setField "done" (.bool b) tf) = some (.bool b) ∧
    (∀ k, k ≠ "done" → getField k (setField "done" (.bool b) tf) = getField k tf) ∧
    (updateTask (updateTask d index (some (.bool b)) true).2 index (some (.bool b)) true).1 =
      (updateTask d index (some (.bool b)) true).1 ∧
    (updateTask (updateTask d index (some (.bool b)) true).2 index (some (.bool b)) true).2.file =
      (updateTask d index (some (.bool b)) true).2.file := by
  have h1 := updateTask_inRange d ms tf ts index i (.bool b) hdoc htasks hkey hi hlen hel
  have h2 := updateTask_inRange (updateTask d index (some (.bool b)) true).2
    (setField "tasks" (.arr (ts.set i (.obj (setField "done" (.bool b) tf)))) ms)
    (setField "done" (.bool b) tf) (ts.set i (.obj (setField "done" (.bool b) tf)))
    index i (.bool b) (by rw [h1]; rfl)
    (by rw [getField_setField_same, orEmpty_arr]) hkey (by simpa using hi) (by simpa using hlen)
    (by simp [hi])
  refine ⟨h1, getField_setField_same _ _ _, fun k hk => getField_setField_ne hk _ _, ?_, ?_⟩
  · rw [h2, h1, setField_setField_same]
  · rw [h2, h1, setField_setField_same, setField_setField_same, List.set_set]

theorem updateTask_sets_done_idempotent_witness :
    updateTask sampleDisk "0" (some (.bool true)) true =
      (.json 200 (.obj [("task", .str "buy milk"), ("done", .bool true), ("added", .str "t0")]),
       ⟨.holds (.obj [
        ("tasks", .arr [
          .obj [("task", .str "buy milk"), ("done", .bool true), ("added", .str "t0")],
          .obj [("task", .str "call bob"), ("done", .bool true), ("added", .str "t1")]]),
        ("notes", .arr [.obj [("note", .str "hello"), ("time", .str "t2")]])]), 1⟩) :=
  (updateTask_sets_done_idempotent sampleDisk _ _ _ "0" 0 true rfl rfl (by decide) (by decide)
    (by decide) rfl).1

/-! ## The invariant of the reachable disks -/

theorem splice1_rest_subset (xs : List JSON) (x : JSNum) :
    ∀ y ∈ (splice1 xs x).2, y ∈ xs := by
  intro y hy
  simp only [splice1, List.mem_append] at hy
  rcases hy with h | h
  · exact List.mem_of_mem_take h
  · exact List.mem_of_mem_drop h

/-- The disk after a delete request: as before, or with the collection
replaced by a part of it. -/
theorem deleteEntry_disk (key notFound failed : String) (d : Disk)
    (ms : List (String × JSON)) (xs : List JSON) (index : String) (fsOk : Bool)
    (hdoc : readMemory d.file = .obj ms) (hxs : getField key ms = some (.arr xs)) :
    (deleteEntry key notFound failed d index fsOk).2 = d ∨
    ∃ ys, (deleteEntry key notFound failed d index fsOk).2 =
        ⟨.holds (.obj (setField key (.arr ys) ms)), d.writes + 1⟩ ∧ ∀ y ∈ ys, y ∈ xs := by
  simp only [deleteEntry, hdoc, JSON.getProp, hxs, orEmpty_arr, JSON.setProp]
  split_ifs with h1 h2
  · exact Or.inl rfl
  · exact Or.inl rfl
  · cases fsOk with
    | false => exact Or.inl rfl
    | true =>
      right
      refine ⟨(splice1 xs (toNumber index)).2, ?_, splice1_rest_subset xs _⟩
      simp only [writeMemory, if_true]
      cases (splice1 xs (toNumber index)).1.head? <;> rfl

/-- The disk after an add request: as before, or with one element appended. -/
theorem addEntry_disk (key required failed : String) (given : Option JSON) (mk : JSON → JSON)
    (d : Disk) (ms : List (String × JSON)) (xs : List JSON) (fsOk : Bool)
    (hdoc : readMemory d.file = .obj ms) (hxs : getField key ms = some (.arr xs)) :
    (addEntry key required failed given mk d fsOk).2 = d ∨
    ∃ g, (addEntry key required failed given mk d fsOk).2 =
        ⟨.holds (.obj (setField key (.arr (xs ++ [mk g])) ms)), d.writes + 1⟩ := by
  cases given with
  | none => exact Or.inl rfl
  | some g =>
    simp only [addEntry, hdoc, JSON.getProp, hxs, orEmpty_arr]
    split_ifs with h1
    · exact Or.inl rfl
    · cases fsOk with
      | false => exact Or.inl rfl
      | true => exact Or.inr ⟨g, rfl⟩

theorem setProp_isObject {x x' : JSON} {k : String} {v : Option JSON} (hx : x.IsObject)
    (h : x.setProp k v = .ok x') : x'.IsObject := by
  obtain ⟨tf, rfl⟩ := hx
  cases v with
  | none =>
    simp only [JSON.setProp, Except.ok.injEq] at h
    exact ⟨_, h.symm⟩
  | some w =>
    simp only [JSON.setProp, Except.ok.injEq] at h
    exact ⟨_, h.symm⟩

/-- The disk after an update request on tasks that are objects: as before, or
with tasks that are still objects. -/
theorem updateTask_disk (d : Disk) (ms : List (String × JSON)) (xs : List JSON)
    (index : String) (done : Option JSON) (fsOk : Bool)
    (hdoc : readMemory d.file = .obj ms) (hxs : getField "tasks" ms = some (.arr xs))
    (hobj : ∀ t ∈ xs, t.IsObject) :
    (updateTask d index done fsOk).2 = d ∨
    ∃ ys, (updateTask d index done fsOk).2 =
        ⟨.holds (.obj (setField "tasks" (.arr ys) ms)), d.writes + 1⟩ ∧
      ∀ y ∈ ys, y.IsObject := by
  simp only [updateTask, hdoc, JSON.getProp, hxs, orEmpty_arr]
  by_cases h1 : (toNumber index).lessThan 0 = true
  · rw [if_pos h1]
    exact Or.inl rfl
  · rw [if_neg h1]
    by_cases h2 : (toNumber index).greaterEq xs.length = true
    · rw [if_pos h2]
      exact Or.inl rfl
    · rw [if_neg h2]
      cases hk : elementKey? index with
      | none =>
        simp only
        by_cases h3 : toNumber index = .nan
        · rw [if_pos h3]
          exact Or.inl rfl
        · rw [if_neg h3]
          exact Or.inl rfl
      | some i =>
        simp only
        cases hx : xs.get? i with
        | none => exact Or.inl rfl
        | some x =>
          simp only
          have hxmem : x ∈ xs := List.get?_mem hx
          cases hset : x.setProp "done" done with
          | error e => exact Or.inl rfl
          | ok x' =>
            simp only [JSON.setProp]
            cases fsOk with
            | false => exact Or.inl rfl
            | true =>
              right
              refine ⟨xs.set i x', rfl, ?_⟩
              intro y hy
              rcases List.mem_or_eq_of_mem_set hy with h | h
              · exact hobj y h
              · rw [h]
                exact setProp_isObject (hobj x hxmem) hset

theorem goodDocument_setTasks {ms : List (String × JSON)} {ns ys : List JSON}
    (hn : getField "notes" ms = some (.arr ns)) (hys : ∀ y ∈ ys, y.IsObject) :
    GoodDocument (.obj (setField "tasks" (.arr ys) ms)) :=
  ⟨_, ys, ns, rfl, getField_setField_same _ _ _,
    by rw [getField_setField_ne (by decide)]; exact hn, hys⟩

theorem goodDocument_setNotes {ms : List (String × JSON)} {ts ys : List JSON}
    (ht : getField "tasks" ms = some (.arr ts)) (hts : ∀ t ∈ ts, t.IsObject) :
    GoodDocument (.obj (setField "notes" (.arr ys) ms)) :=
  ⟨_, ts, ys, rfl, by rw [getField_setField_ne (by decide)]; exact ht,
    getField_setField_same _ _ _, hts⟩

/-- Every reachable disk reads as a document whose tasks are objects. -/
theorem reachable_goodDocument {d : Disk} (h : Reachable d) :
    GoodDocument (readMemory d.file) := by
  induction h with
  | missing n => exact ⟨_, [], [], rfl, rfl, rfl, by simp⟩
  | empty n => exact ⟨_, [], [], rfl, rfl, rfl, by simp⟩
  | @step d r fsOk _ _ ih =>
    obtain ⟨ms, ts, ns, hv, ht, hn, hobj⟩ := ih
    cases r with
    | addTask task now =>
      rcases addEntry_disk "tasks" "Task text required" "Failed to save task" task
        (fun task => newTask task now) d ms ts fsOk hv ht with h | ⟨g, h⟩
      · simp only [handle, addTask, h]
        exact ⟨ms, ts, ns, hv, ht, hn, hobj⟩
      · simp only [handle, addTask, h, readMemory]
        refine goodDocument_setTasks hn ?_
        intro y hy
        rcases List.mem_append.mp hy with h' | h'
        · exact hobj y h'
        · rw [List.mem_singleton.mp h']
          exact ⟨_, rfl⟩
    | updateTask index done =>
      rcases updateTask_disk d ms ts index done fsOk hv ht hobj with h | ⟨ys, h, hys⟩
      · simp only [handle, h]
        exact ⟨ms, ts, ns, hv, ht, hn, hobj⟩
      · simp only [handle, h, readMemory]
        exact goodDocument_setTasks hn hys
    | deleteTask index =>
      rcases deleteEntry_disk "tasks" "Task not found" "Failed to delete task" d ms ts index
        fsOk hv ht with h | ⟨ys, h, hys⟩
      · simp only [handle, deleteTask, h]
        exact ⟨ms, ts, ns, hv, ht, hn, hobj⟩
      · simp only [handle, deleteTask, h, readMemory]
        exact goodDocument_setTasks hn (fun y hy => hobj y (hys y hy))
    | addNote note now =>
      rcases addEntry_disk "notes" "Note text required" "Failed to save note" note
        (fun note => newNote note now) d ms ns fsOk hv hn with h | ⟨g, h⟩
      · simp only [handle, addNote, h]
        exact ⟨ms, ts, ns, hv, ht, hn, hobj⟩
      · simp only [handle, addNote, h, readMemory]
        exact goodDocument_setNotes ht hobj
    | deleteNote index =>
      rcases deleteEntry_disk "notes" "Note not found" "Failed to delete note" d ms ns index
        fsOk hv hn with h | ⟨ys, h, _⟩
      · simp only [handle, deleteNote, h]
        exact ⟨ms, ts, ns, hv, ht, hn, hobj⟩
      · simp only [handle, deleteNote, h, readMemory]
        exact goodDocument_setNotes ht hobj

/-- On tasks that are objects the two callbacks of the stats handler never
throw and split the sequence in two. -/
theorem arrayFilter_objects (ts : List JSON) (hobj : ∀ t ∈ ts, t.IsObject) :
    ∃ completed pending, arrayFilter isDone ts = .ok completed ∧
      arrayFilter notDone ts = .ok pending ∧
      completed.length + pending.length = ts.length := by
  induction ts with
  | nil => exact ⟨[], [], rfl, rfl, rfl⟩
  | cons t rest ih =>
    obtain ⟨c, p, hc, hp, hlen⟩ := ih (fun u hu => hobj u (List.mem_cons_of_mem _ hu))
    obtain ⟨tf, rfl⟩ := hobj t (List.mem_cons_self _ _)
    cases hd : truthy (getField "done" tf) with
    | true =>
      refine ⟨.obj tf :: c, p, ?_, ?_, ?_⟩
      · simp [arrayFilter, isDone, JSON.getProp, hd, hc]
      · simp [arrayFilter, notDone, JSON.getProp, hd, hp]
      · simp only [List.length_cons]; omega
    | false =>
      refine ⟨c, .obj tf :: p, ?_, ?_, ?_⟩
      · simp [arrayFilter, isDone, JSON.getProp, hd, hc]
      · simp [arrayFilter, notDone, JSON.getProp, hd, hp]
      · simp only [List.length_cons]; omega

/-- C7: on every disk reachable from the empty document by add-task,
update-task, delete-task, add-note and delete-note requests, the stats
request answers 200 with `totalTasks`, `completedTasks`, `pendingTasks` and
`totalNotes`, where `totalTasks` is the length of the tasks sequence that
list-tasks returns and `totalTasks = completedTasks + pendingTasks`. -/
theorem stats_total_is_completed_plus_pending (d : Disk) (h : Reachable d) :
    ∃ (ts : List JSON) (completed pending notes : Nat),
      (listTasks d).1 = .json 200 (.arr ts) ∧
      stats d = (.json 200 (.obj [("totalTasks", JSON.ofNat ts.length),
        ("completedTasks", JSON.ofNat completed), ("pendingTasks", JSON.ofNat pending),
        ("totalNotes", JSON.ofNat notes)]), d) ∧
      ts.length = completed + pending := by
  obtain ⟨ms, ts, ns, hv, ht, hn, hobj⟩ := reachable_goodDocument h
  obtain ⟨c, p, hc, hp, hlen⟩ := arrayFilter_objects ts hobj
  refine ⟨ts, c.length, p.length, ns.length, ?_, ?_, hlen.symm⟩
  · simp [listTasks, hv, JSON.getProp, ht, orEmpty_arr]
  · simp [stats, hv, JSON.getProp, ht, hn, orEmpty_arr, hc, hp, JSON.lengthProp, JSON.ofNat]

/-- The disk of the scenario is reachable. -/
theorem scenarioDisk_reachable : Reachable scenarioDisk :=
  Reachable.step _ true
    (Reachable.step _ true (Reachable.missing 0) (by
      intro h
      have h' : Response.json 201 (newTask (.str "buy milk") "t0") = .unmodelled := h
      cases h'))
    (by
      intro h
      have h' : Response.json 200 (.obj [("task", .str "buy milk"), ("done", .bool true),
        ("added", .str "t0")]) = .unmodelled := h
      cases h')

theorem stats_total_is_completed_plus_pending_witness :
    ∃ (ts : List JSON) (completed pending notes : Nat),
      (listTasks scenarioDisk).1 = .json 200 (.arr ts) ∧
      stats scenarioDisk = (.json 200 (.obj [("totalTasks", JSON.ofNat ts.length),
        ("completedTasks", JSON.ofNat completed), ("pendingTasks", JSON.ofNat pending),
        ("totalNotes", JSON.ofNat notes)]), scenarioDisk) ∧
      ts.length = completed + pending :=
  stats_total_is_completed_plus_pending scenarioDisk scenarioDisk_reachable

/-- The scenario of the specification: after adding `buy milk` and completing
it, the stats are one task, one completed, none pending, no notes. -/
theorem stats_scenario :
    (stats scenarioDisk).1 = .json 200 (.obj [("totalTasks", JSON.ofNat 1),
      ("completedTasks", JSON.ofNat 1), ("pendingTasks", JSON.ofNat 0),
      ("totalNotes", JSON.ofNat 0)]) := by
  rfl

end VoiceAgent
